import Mathlib

/-!
Verification development for the heads-up short-deck poker engine
(`engine/roundstate.py`, `engine/evaluate.py`, `engine/config.py`).

Cards are the 27 strings "1s".."9d" (ranks 1..9, suits s/h/d); we embed a
card as a pair of naturals (rank, suit).  All chip quantities are Python
ints, embedded as `Int`.  Python's floor division `//` is `Int.fdiv`, and
Python's `round` (round-half-to-even) applied to the exact rational
`num / den` is modelled by `pyRound` on naturals.
-/

namespace PokerEngine

/-- A card: rank 1..9, suit 0=s, 1=h, 2=d (mirrors the 2-character strings
produced by the source deck f"{rank}{suit}"). -/
structure Card where
  rank : Nat
  suit : Nat
deriving DecidableEq, Repr, Inhabited

/-- Positional base-10 weighting used by the source tie-break values:
`posWeighted [r0, r1, ...] = r0 * 1 + r1 * 10 + r2 * 100 + ...`
(the head of the list is the lowest-weighted card). -/
def posWeighted : List Nat → Nat
  | [] => 0
  | r :: rs => r + 10 * posWeighted rs

/-- Sorting relation on ranks, ascending (Python sorted on card strings
orders by the leading rank digit; equal ranks contribute equal summands
so the suit order among ties is irrelevant to every value computed). -/
def rankLe (a b : Nat) : Prop := a ≤ b

instance : DecidableRel rankLe := fun a b => inferInstanceAs (Decidable (a ≤ b))

/-- num_flushes: the number of 3-card combinations of the hand whose three
cards share a suit (source iterates itertools.combinations(hand, 3)). -/
def num_flushes (hand : List Card) : Nat :=
  (hand.sublistsLen 3).countP fun combo =>
    match combo with
    | [a, b, c] => a.suit == b.suit && b.suit == c.suit
    | _ => false

/-- num_straights: the ranks are sorted ascending and the source counts the
3-card combinations of the sorted ranks forming a run of consecutive
ranks (combo[0] == combo[1] - 1 and combo[1] == combo[2] - 1). -/
def num_straights (hand : List Card) : Nat :=
  let ranks := (hand.map Card.rank).insertionSort rankLe
  (ranks.sublistsLen 3).countP fun combo =>
    match combo with
    | [a, b, c] => a + 1 == b && b + 1 == c
    | _ => false

/-- num_pairs: the number of 2-card combinations sharing a rank. -/
def num_pairs (hand : List Card) : Nat :=
  (hand.sublistsLen 2).countP fun combo =>
    match combo with
    | [a, b] => a.rank == b.rank
    | _ => false

def is_straight_flush (hand : List Card) : Bool :=
  num_flushes hand == 4 && num_straights hand == 2

def is_trips (hand : List Card) : Bool := num_pairs hand == 3

def is_two_pair (hand : List Card) : Bool := num_pairs hand == 2

def is_4flush (hand : List Card) : Bool := num_flushes hand == 4

def is_straight (hand : List Card) : Bool := num_straights hand > 0

def is_3flush (hand : List Card) : Bool := num_flushes hand == 1

def is_pair (hand : List Card) : Bool := num_pairs hand == 1

/-- high_card_value: sum of rank * 10^i over the cards sorted ascending
(Python sorts the card strings, i.e. by rank first; only ranks enter the
sum). -/
def high_card_value (hand : List Card) : Nat :=
  posWeighted ((hand.map Card.rank).insertionSort rankLe)

/-- Sorting relation for frequent_card_value: ranks ordered by the key
10 * (count of that rank in the hand) + rank, ascending. -/
def freqKeyLe (ranks : List Nat) (a b : Nat) : Prop :=
  10 * ranks.count a + a ≤ 10 * ranks.count b + b

instance (ranks : List Nat) : DecidableRel (freqKeyLe ranks) := fun a b =>
  inferInstanceAs (Decidable (10 * ranks.count a + a ≤ 10 * ranks.count b + b))

/-- frequent_card_value: ranks sorted by (10 * count + rank) ascending, then
weighted positionally, so the repeated rank lands in the highest digits. -/
def frequent_card_value (hand : List Card) : Nat :=
  let ranks := hand.map Card.rank
  posWeighted (ranks.insertionSort (freqKeyLe ranks))

/-- find_flush: reads the suits of the first three cards of the (rank-sorted)
hand to pick the flush suit, then filters; mirrors the source indexing
hand[0], hand[1], hand[2] (total via the Inhabited default, the source is
only called with at least 3 cards). -/
def find_flush (hand : List Card) : List Card :=
  let c0 := hand.getD 0 default
  let c1 := hand.getD 1 default
  let c2 := hand.getD 2 default
  let suit := if c0.suit = c1.suit ∨ c0.suit = c2.suit then c0.suit else c1.suit
  hand.filter fun c => c.suit == suit

/-- Relation sorting cards ascending by rank (Python sorted(hand) on the
card strings inside find_straight). -/
def cardRankLe (a b : Card) : Prop := a.rank ≤ b.rank

instance : DecidableRel cardRankLe := fun a b =>
  inferInstanceAs (Decidable (a.rank ≤ b.rank))

/-- find_straight: of the rank-sorted hand, test the top-3 slice [1:4] and
fall back to the bottom-3 slice [0:3]. -/
def find_straight (hand : List Card) : List Card :=
  let sortedHand := hand.insertionSort cardRankLe
  let s1 := (sortedHand.drop 1).take 3
  let s2 := sortedHand.take 3
  if num_straights s1 > 0 then s1 else s2

/-- Relation sorting cards descending by rank (the source builds
combined_hand with sorted(..., key=rank, reverse=True)). -/
def cardRankGe (a b : Card) : Prop := b.rank ≤ a.rank

instance : DecidableRel cardRankGe := fun a b =>
  inferInstanceAs (Decidable (b.rank ≤ a.rank))

/-- evaluate: combine hole and board, sort descending by rank, then walk the
category chain of the source, returning base + tie-break value. -/
def evaluate (hand board : List Card) : Nat :=
  let combined_hand := (hand ++ board).insertionSort cardRankGe
  if is_straight_flush combined_hand then 8000 + high_card_value combined_hand
  else if is_trips combined_hand then 7000 + frequent_card_value combined_hand
  else if is_two_pair combined_hand then 6000 + high_card_value combined_hand
  else if is_4flush combined_hand then 4000 + high_card_value combined_hand
  else if is_straight combined_hand then 3000 + high_card_value (find_straight combined_hand)
  else if is_3flush combined_hand then 3000 + high_card_value (find_flush combined_hand)
  else if is_pair combined_hand then 2000 + frequent_card_value combined_hand
  else 1000 + high_card_value combined_hand

/-! ## Game configuration (engine/config.py) -/

def STARTING_STACK : Nat := 400
def BIG_BLIND : Nat := 2
def SMALL_BLIND : Nat := 1

/-! ## Actions and states (engine/actions.py, engine/roundstate.py) -/

/-- The closed action union; RaiseAction carries the absolute target pip. -/
inductive Action where
  | FoldAction
  | CallAction
  | CheckAction
  | RaiseAction (amount : Int)
deriving DecidableEq, Repr

/-- The action classes that legal_actions returns a set of. -/
inductive ActionKind where
  | FoldAction
  | CallAction
  | CheckAction
  | RaiseAction
deriving DecidableEq, Repr

/-- RoundState: button, street, pips, stacks, hands, board, deck and the
back-reference to the previous state (None at the round root). -/
inductive RoundState where
  | mk (button street : Nat) (pip0 pip1 stack0 stack1 : Int)
       (hand0 hand1 board deck : List Card)
       (previous_state : Option RoundState)

def RoundState.button : RoundState → Nat
  | .mk b _ _ _ _ _ _ _ _ _ _ => b

def RoundState.street : RoundState → Nat
  | .mk _ st _ _ _ _ _ _ _ _ _ => st

def RoundState.pip0 : RoundState → Int
  | .mk _ _ p _ _ _ _ _ _ _ _ => p

def RoundState.pip1 : RoundState → Int
  | .mk _ _ _ p _ _ _ _ _ _ _ => p

def RoundState.stack0 : RoundState → Int
  | .mk _ _ _ _ s _ _ _ _ _ _ => s

def RoundState.stack1 : RoundState → Int
  | .mk _ _ _ _ _ s _ _ _ _ _ => s

def RoundState.hand0 : RoundState → List Card
  | .mk _ _ _ _ _ _ h _ _ _ _ => h

def RoundState.hand1 : RoundState → List Card
  | .mk _ _ _ _ _ _ _ h _ _ _ => h

def RoundState.board : RoundState → List Card
  | .mk _ _ _ _ _ _ _ _ b _ _ => b

def RoundState.deck : RoundState → List Card
  | .mk _ _ _ _ _ _ _ _ _ d _ => d

/-- pips[i] for i computed as button % 2 or 1 - that. -/
def pipAt (s : RoundState) (i : Nat) : Int :=
  if i = 0 then s.pip0 else s.pip1

/-- stacks[i]. -/
def stackAt (s : RoundState) (i : Nat) : Int :=
  if i = 0 then s.stack0 else s.stack1

/-- hands[i]. -/
def handAt (s : RoundState) (i : Nat) : List Card :=
  if i = 0 then s.hand0 else s.hand1

/-- TerminalState([delta, -delta], self): the two deltas and the
back-reference. -/
structure TerminalState where
  delta0 : Int
  delta1 : Int
  previous : RoundState

/-- proceed / proceed_street return either a new RoundState or a
TerminalState. -/
inductive ProceedResult where
  | round (s : RoundState)
  | terminal (t : TerminalState)

/-! ## Showdown (RoundState.showdown) -/

/-- Python round(num / den) for nonnegative num, positive den: the exact
rational num / den rounded half-to-even (the source computes this through
float division; the quantities involved are small). -/
def pyRound (num den : Nat) : Nat :=
  let q := num / den
  let r := num % den
  if 2 * r < den then q
  else if den < 2 * r then q + 1
  else if q % 2 = 0 then q else q + 1

/-- The enumerated completions of the board: every combination of
2 - len(board) cards from the undealt deck. -/
def completions (s : RoundState) : List (List Card) :=
  s.deck.sublistsLen (2 - s.board.length)

/-- The accumulated p0Eq of the equity-chop loop: +2 for each completion
player 0 wins, +1 for each tie. -/
def p0EqOf (s : RoundState) : Nat :=
  ((completions s).map fun combo =>
    let board := s.board ++ combo
    let score0 := evaluate s.hand0 board
    let score1 := evaluate s.hand1 board
    (if score1 < score0 then 2 else 0) + (if score0 = score1 then 1 else 0)).sum

/-- The accumulated comb of the equity-chop loop: +2 per completion. -/
def combOf (s : RoundState) : Nat :=
  2 * (completions s).length

/-- RoundState.showdown. -/
def showdown (s : RoundState) : TerminalState :=
  if s.board.length < 2 then
    let delta : Int :=
      (pyRound (2 * STARTING_STACK * p0EqOf s) (combOf s) : Int) - STARTING_STACK
    ⟨delta, -delta, s⟩
  else
    let score0 := evaluate s.hand0 s.board
    let score1 := evaluate s.hand1 s.board
    let delta : Int :=
      if score1 < score0 then (STARTING_STACK : Int) - s.stack1
      else if score0 < score1 then s.stack0 - (STARTING_STACK : Int)
      else Int.fdiv (s.stack0 - s.stack1) 2
    ⟨delta, -delta, s⟩

/-! ## Legality and raise bounds -/

/-- RoundState.legal_actions. -/
def legal_actions (s : RoundState) : Finset ActionKind :=
  let active := s.button % 2
  let continue_cost := pipAt s (1 - active) - pipAt s active
  if continue_cost = 0 then
    if s.stack0 = 0 ∨ s.stack1 = 0 then {ActionKind.CheckAction}
    else {ActionKind.CheckAction, ActionKind.RaiseAction}
  else
    if stackAt s active ≤ continue_cost ∨ stackAt s (1 - active) = 0 then
      {ActionKind.FoldAction, ActionKind.CallAction}
    else {ActionKind.FoldAction, ActionKind.CallAction, ActionKind.RaiseAction}

/-- RoundState.raise_bounds. -/
def raise_bounds (s : RoundState) : Int × Int :=
  let active := s.button % 2
  let continue_cost := pipAt s (1 - active) - pipAt s active
  let max_contribution := min (stackAt s active) (stackAt s (1 - active) + continue_cost)
  let min_contribution := min max_contribution (continue_cost + max continue_cost (BIG_BLIND : Int))
  (pipAt s active + min_contribution, pipAt s active + max_contribution)

/-! ## Street advancement and proceed -/

/-- RoundState.proceed_street: after the river (street >= 2) or once both
stacks are empty, resolve by showdown; otherwise deal one card from the
end of the deck (deck.deal pops the last card) onto the board. -/
def proceed_street (s : RoundState) : ProceedResult :=
  if 2 ≤ s.street ∨ s.stack0 + s.stack1 = 0 then .terminal (showdown s)
  else
    let new_street := s.street + 1
    let dealt := if new_street = 1 ∨ new_street = 2 then s.deck.drop (s.deck.length - 1) else []
    let newBoard := s.board ++ dealt
    let newDeck := if new_street = 1 ∨ new_street = 2 then s.deck.take (s.deck.length - 1) else s.deck
    .round (.mk 1 new_street 0 0 s.stack0 s.stack1 s.hand0 s.hand1 newBoard newDeck (some s))

/-- RoundState.proceed. -/
def proceed (s : RoundState) (action : Action) : ProceedResult :=
  let active := s.button % 2
  match action with
  | .FoldAction =>
      let delta : Int :=
        if active = 0 then s.stack0 - (STARTING_STACK : Int)
        else (STARTING_STACK : Int) - s.stack1
      .terminal ⟨delta, -delta, s⟩
  | .CallAction =>
      if s.button = 0 then
        -- sb calls bb preflop
        .round (.mk 1 0 (BIG_BLIND : Int) (BIG_BLIND : Int)
          ((STARTING_STACK : Int) - BIG_BLIND) ((STARTING_STACK : Int) - BIG_BLIND)
          s.hand0 s.hand1 s.board s.deck (some s))
      else
        let contribution := pipAt s (1 - active) - pipAt s active
        let state : RoundState :=
          if active = 0 then
            .mk (s.button + 1) s.street (s.pip0 + contribution) s.pip1
              (s.stack0 - contribution) s.stack1 s.hand0 s.hand1 s.board s.deck (some s)
          else
            .mk (s.button + 1) s.street s.pip0 (s.pip1 + contribution)
              s.stack0 (s.stack1 - contribution) s.hand0 s.hand1 s.board s.deck (some s)
        proceed_street state
  | .CheckAction =>
      if (s.street = 0 ∧ 0 < s.button) ∨ 1 < s.button then
        -- both players acted
        proceed_street s
      else
        .round (.mk (s.button + 1) s.street s.pip0 s.pip1 s.stack0 s.stack1
          s.hand0 s.hand1 s.board s.deck (some s))
  | .RaiseAction amount =>
      let contribution := amount - pipAt s active
      if active = 0 then
        .round (.mk (s.button + 1) s.street (s.pip0 + contribution) s.pip1
          (s.stack0 - contribution) s.stack1 s.hand0 s.hand1 s.board s.deck (some s))
      else
        .round (.mk (s.button + 1) s.street s.pip0 (s.pip1 + contribution)
          s.stack0 (s.stack1 - contribution) s.hand0 s.hand1 s.board s.deck (some s))

/-! ## Reachability (engine orchestration: blinds posted, then legal
actions applied through proceed) -/

/-- The round root built by the orchestrator: button 0, street 0, blinds
posted as pips, stacks debited by the blinds, empty board. -/
def startState (hand0 hand1 deck : List Card) : RoundState :=
  .mk 0 0 (SMALL_BLIND : Int) (BIG_BLIND : Int)
    ((STARTING_STACK : Int) - SMALL_BLIND) ((STARTING_STACK : Int) - BIG_BLIND)
    hand0 hand1 [] deck none

/-- An action the orchestrator would pass to proceed: its kind is in
legal_actions, and a raise amount lies within raise_bounds. -/
def LegalFor (s : RoundState) : Action → Prop
  | .FoldAction => ActionKind.FoldAction ∈ legal_actions s
  | .CallAction => ActionKind.CallAction ∈ legal_actions s
  | .CheckAction => ActionKind.CheckAction ∈ legal_actions s
  | .RaiseAction amount => ActionKind.RaiseAction ∈ legal_actions s ∧
      (raise_bounds s).1 ≤ amount ∧ amount ≤ (raise_bounds s).2

/-- States reachable from a blinds-posted root by legal actions. -/
inductive Reachable : RoundState → Prop where
  | init (hand0 hand1 deck : List Card) : Reachable (startState hand0 hand1 deck)
  | step (s : RoundState) (a : Action) (s' : RoundState) :
      Reachable s → LegalFor s a → proceed s a = .round s' → Reachable s'

/-- The total of chips visible in a state. -/
def chipSum (s : RoundState) : Int :=
  s.stack0 + s.pip0 + s.stack1 + s.pip1

/-- The invariant actually maintained along reachable states: nonnegative
pips and stacks, a nonnegative continue-cost covered by the active stack,
and a chip total that never exceeds (and equals, while preflop) twice the
starting stack. -/
def Inv (s : RoundState) : Prop :=
  0 ≤ s.pip0 ∧ 0 ≤ s.pip1 ∧ 0 ≤ s.stack0 ∧ 0 ≤ s.stack1 ∧
  (if s.button % 2 = 0 then s.pip0 ≤ s.pip1 ∧ s.pip1 - s.pip0 ≤ s.stack0
   else s.pip1 ≤ s.pip0 ∧ s.pip0 - s.pip1 ≤ s.stack1) ∧
  chipSum s ≤ 2 * (STARTING_STACK : Int) ∧
  (s.street = 0 → chipSum s = 2 * (STARTING_STACK : Int))

/-- The delta player 0 receives from the equity chop. -/
def eqDelta (s : RoundState) : Int :=
  (pyRound (2 * STARTING_STACK * p0EqOf s) (combOf s) : Int) - STARTING_STACK

/-- The delta written into deltas[0] when the active player folds. -/
def foldDelta (s : RoundState) : Int :=
  if s.button % 2 = 0 then s.stack0 - (STARTING_STACK : Int)
  else (STARTING_STACK : Int) - s.stack1

/-! ## Concrete states used by counterexamples and witnesses -/

def h0c : List Card := [⟨1, 0⟩, ⟨2, 1⟩]
def h1c : List Card := [⟨3, 0⟩, ⟨4, 1⟩]
def d0c : List Card := [⟨7, 2⟩]

/-- The blinds-posted root with the concrete hands and a 1-card deck. -/
def start0c : RoundState := startState h0c h1c d0c

/-- After the small blind limps (Call at button 0). -/
def st1c : RoundState := .mk 1 0 2 2 398 398 h0c h1c [] d0c (some start0c)

/-- After the big blind checks preflop: the flop state, pips cleared. -/
def st2c : RoundState := .mk 1 1 0 0 398 398 h0c h1c [⟨7, 2⟩] [] (some st1c)

/-- A state with continue cost 0 (both pips 2). -/
def wit2state : RoundState := .mk 1 0 2 2 398 398 [] [] [] [] none

/-- A blinds-posted-shaped state used to witness raise-bound soundness. -/
def wit3state : RoundState := .mk 0 0 1 2 399 398 [] [] [] [] none

/-- A complete board, tied hands (same ranks, no flush), stacks 5 and 2:
the stack difference is odd, exposing the tie-split rounding. -/
def cex7 : RoundState :=
  .mk 2 2 0 0 5 2 [⟨1, 0⟩, ⟨2, 1⟩] [⟨1, 1⟩, ⟨2, 0⟩] [⟨5, 2⟩, ⟨9, 2⟩] [] none

/-- A preflop state in which player 0 has raised to 10 and faces a reraise
to 30 (button 2, stacks 390/370): folding costs 10, not just the blind. -/
def cex8 : RoundState := .mk 2 0 10 30 390 370 [] [] [] [] none

/-- An all-in state with a 1-card board and 3 undealt cards. -/
def wit1state : RoundState :=
  .mk 5 2 0 0 0 0 [⟨2, 0⟩, ⟨3, 1⟩] [⟨8, 0⟩, ⟨8, 1⟩] [⟨5, 2⟩]
    [⟨9, 0⟩, ⟨4, 1⟩, ⟨7, 2⟩] none

/-! ## Heap model of the board/deck list objects (for the mutation claim)

In the source, RoundState is a namedtuple (its field bindings can never be
reassigned) but board and deck are Python list objects shared by reference
along the previous_state chain, and proceed_street runs
self.board.extend(self.deck.deal(1)), mutating both objects in place
before handing the very same objects to the new RoundState.  To reason
about this aliasing we model the heap of list objects explicitly. -/

/-- The heap of Python list objects, indexed by object identity. -/
structure Store where
  lists : List (List Card)

/-- Reading a list object. -/
def Store.get (σ : Store) (r : Nat) : List Card := σ.lists.getD r []

/-- Overwriting a list object in place. -/
def Store.set (σ : Store) (r : Nat) (v : List Card) : Store := ⟨σ.lists.set r v⟩

/-- A round state whose board and deck are references into the store. -/
structure RoundStateRef where
  button : Nat
  street : Nat
  pip0 : Int
  pip1 : Int
  stack0 : Int
  stack1 : Int
  hand0 : List Card
  hand1 : List Card
  boardRef : Nat
  deckRef : Nat
deriving DecidableEq, Repr

/-- proceed_street with the heap made explicit: on a street advance the
deck object loses its last card (deck.deal pops) and the board object is
extended in place; the new state carries the same two references. -/
def proceed_street_ref (s : RoundStateRef) (σ : Store) :
    Option RoundStateRef × Store :=
  if 2 ≤ s.street ∨ s.stack0 + s.stack1 = 0 then (none, σ)
  else
    let new_street := s.street + 1
    if new_street = 1 ∨ new_street = 2 then
      let deck := σ.get s.deckRef
      let dealt := deck.drop (deck.length - 1)
      let σ1 := σ.set s.deckRef (deck.take (deck.length - 1))
      let σ2 := σ1.set s.boardRef (σ1.get s.boardRef ++ dealt)
      (some ⟨1, new_street, 0, 0, s.stack0, s.stack1, s.hand0, s.hand1,
        s.boardRef, s.deckRef⟩, σ2)
    else
      (some ⟨1, new_street, 0, 0, s.stack0, s.stack1, s.hand0, s.hand1,
        s.boardRef, s.deckRef⟩, σ)

/-- A concrete state about to advance to the flop: board object 0 (empty),
deck object 1 (one card). -/
def s9ref : RoundStateRef := ⟨1, 0, 0, 0, 398, 398, [], [], 0, 1⟩

/-- The concrete heap for s9ref. -/
def store9 : Store := ⟨[[], [⟨7, 2⟩]]⟩

/-! ## Helper lemmas -/

@[simp] theorem button_mk (b st p0 p1 s0 s1 h0 h1 bd dk pv) :
    (RoundState.mk b st p0 p1 s0 s1 h0 h1 bd dk pv).button = b := rfl

@[simp] theorem street_mk (b st p0 p1 s0 s1 h0 h1 bd dk pv) :
    (RoundState.mk b st p0 p1 s0 s1 h0 h1 bd dk pv).street = st := rfl

@[simp] theorem pip0_mk (b st p0 p1 s0 s1 h0 h1 bd dk pv) :
    (RoundState.mk b st p0 p1 s0 s1 h0 h1 bd dk pv).pip0 = p0 := rfl

@[simp] theorem pip1_mk (b st p0 p1 s0 s1 h0 h1 bd dk pv) :
    (RoundState.mk b st p0 p1 s0 s1 h0 h1 bd dk pv).pip1 = p1 := rfl

@[simp] theorem stack0_mk (b st p0 p1 s0 s1 h0 h1 bd dk pv) :
    (RoundState.mk b st p0 p1 s0 s1 h0 h1 bd dk pv).stack0 = s0 := rfl

@[simp] theorem stack1_mk (b st p0 p1 s0 s1 h0 h1 bd dk pv) :
    (RoundState.mk b st p0 p1 s0 s1 h0 h1 bd dk pv).stack1 = s1 := rfl

@[simp] theorem hand0_mk (b st p0 p1 s0 s1 h0 h1 bd dk pv) :
    (RoundState.mk b st p0 p1 s0 s1 h0 h1 bd dk pv).hand0 = h0 := rfl

@[simp] theorem hand1_mk (b st p0 p1 s0 s1 h0 h1 bd dk pv) :
    (RoundState.mk b st p0 p1 s0 s1 h0 h1 bd dk pv).hand1 = h1 := rfl

@[simp] theorem board_mk (b st p0 p1 s0 s1 h0 h1 bd dk pv) :
    (RoundState.mk b st p0 p1 s0 s1 h0 h1 bd dk pv).board = bd := rfl

@[simp] theorem deck_mk (b st p0 p1 s0 s1 h0 h1 bd dk pv) :
    (RoundState.mk b st p0 p1 s0 s1 h0 h1 bd dk pv).deck = dk := rfl

theorem combOf_eq_choose (s : RoundState) :
    combOf s = 2 * Nat.choose s.deck.length (2 - s.board.length) := by
  unfold combOf completions
  rw [List.length_sublistsLen]

theorem sum_map_two_one {α : Type} (l : List α) (p q : α → Prop)
    [DecidablePred p] [DecidablePred q] :
    (l.map fun x => (if p x then 2 else 0) + (if q x then 1 else 0)).sum
      = 2 * l.countP (fun x => decide (p x)) + l.countP (fun x => decide (q x)) := by
  induction l with
  | nil => simp
  | cons a l ih =>
      simp only [List.map_cons, List.sum_cons, List.countP_cons, ih]
      by_cases hp : p a <;> by_cases hq : q a <;> simp [hp, hq] <;> omega

theorem showdown_zero (s : RoundState) :
    (showdown s).delta0 + (showdown s).delta1 = 0 := by
  unfold showdown
  split_ifs <;> simp

theorem proceed_street_terminal_zero (s : RoundState) (t : TerminalState)
    (h : proceed_street s = .terminal t) : t.delta0 + t.delta1 = 0 := by
  unfold proceed_street at h
  split_ifs at h with hg
  obtain rfl : showdown s = t := by simpa using h
  exact showdown_zero s

theorem proceed_terminal_zero (s : RoundState) (a : Action) (t : TerminalState)
    (h : proceed s a = .terminal t) : t.delta0 + t.delta1 = 0 := by
  cases a with
  | FoldAction =>
      simp only [proceed, ProceedResult.terminal.injEq] at h
      subst h
      simp
  | CallAction =>
      simp only [proceed] at h
      split_ifs at h with h1 h2
      · exact proceed_street_terminal_zero _ _ h
      · exact proceed_street_terminal_zero _ _ h
  | CheckAction =>
      simp only [proceed] at h
      split_ifs at h with h1
      exact proceed_street_terminal_zero _ _ h
  | RaiseAction amount =>
      simp only [proceed] at h
      split_ifs at h

/-! ## Claim theorems -/

/-- C2: legal_actions returns exactly the specified sets: with zero
continue cost, Check alone when either stack is empty and Check/Raise
otherwise; with positive continue cost, Fold/Call when the cost covers the
active stack or the opponent is empty, and Fold/Call/Raise otherwise; and
the set is never empty. -/
theorem legal_actions_exact (s : RoundState) :
    (pipAt s (1 - s.button % 2) - pipAt s (s.button % 2) = 0 →
      legal_actions s =
        if s.stack0 = 0 ∨ s.stack1 = 0 then {ActionKind.CheckAction}
        else {ActionKind.CheckAction, ActionKind.RaiseAction}) ∧
    (0 < pipAt s (1 - s.button % 2) - pipAt s (s.button % 2) →
      legal_actions s =
        if stackAt s (s.button % 2) ≤ pipAt s (1 - s.button % 2) - pipAt s (s.button % 2)
            ∨ stackAt s (1 - s.button % 2) = 0 then
          {ActionKind.FoldAction, ActionKind.CallAction}
        else {ActionKind.FoldAction, ActionKind.CallAction, ActionKind.RaiseAction}) ∧
    legal_actions s ≠ ∅ := by
  refine ⟨?_, ?_, ?_⟩
  · intro h
    simp only [legal_actions]
    rw [if_pos h]
  · intro h
    simp only [legal_actions]
    rw [if_neg (by omega)]
  · simp only [legal_actions]
    split_ifs <;> simp

/-- C2 witness: at the concrete post-limp state the zero-cost branch
applies and the set is nonempty. -/
theorem legal_actions_exact_witness :
    (pipAt wit2state (1 - wit2state.button % 2) - pipAt wit2state (wit2state.button % 2) = 0 ∧
      legal_actions wit2state =
        if wit2state.stack0 = 0 ∨ wit2state.stack1 = 0 then {ActionKind.CheckAction}
        else {ActionKind.CheckAction, ActionKind.RaiseAction}) ∧
    legal_actions wit2state ≠ ∅ :=
  ⟨⟨by decide, (legal_actions_exact wit2state).1 (by decide)⟩,
    (legal_actions_exact wit2state).2.2⟩

/-- C3: raise_bounds returns pips[active] + min_contribution and
pips[active] + max_contribution with max_contribution =
min(stacks[active], stacks[other] + cost) and min_contribution =
min(max_contribution, cost + max(cost, BIG_BLIND)); the lower bound never
exceeds the upper bound, and proceeding with a Raise at either bound
leaves both stacks nonnegative (given nonnegative stacks). -/
theorem raise_bounds_sound (s : RoundState)
    (hs0 : 0 ≤ s.stack0) (hs1 : 0 ≤ s.stack1) :
    raise_bounds s =
      (pipAt s (s.button % 2) +
         min (min (stackAt s (s.button % 2))
                (stackAt s (1 - s.button % 2) +
                  (pipAt s (1 - s.button % 2) - pipAt s (s.button % 2))))
           ((pipAt s (1 - s.button % 2) - pipAt s (s.button % 2)) +
              max (pipAt s (1 - s.button % 2) - pipAt s (s.button % 2)) (BIG_BLIND : Int)),
       pipAt s (s.button % 2) +
         min (stackAt s (s.button % 2))
           (stackAt s (1 - s.button % 2) +
             (pipAt s (1 - s.button % 2) - pipAt s (s.button % 2)))) ∧
    (raise_bounds s).1 ≤ (raise_bounds s).2 ∧
    (∀ amount s', (amount = (raise_bounds s).1 ∨ amount = (raise_bounds s).2) →
      proceed s (.RaiseAction amount) = .round s' →
      0 ≤ s'.stack0 ∧ 0 ≤ s'.stack1) := by
  refine ⟨rfl, ?_, ?_⟩
  · simp only [raise_bounds]
    omega
  · intro amount s' hamt hp
    simp only [raise_bounds] at hamt
    simp only [proceed] at hp
    split_ifs at hp with hac
    · have e1 : pipAt s (s.button % 2) = s.pip0 := by unfold pipAt; rw [hac]; rfl
      have e2 : pipAt s (1 - s.button % 2) = s.pip1 := by unfold pipAt; rw [hac]; rfl
      have e3 : stackAt s (s.button % 2) = s.stack0 := by unfold stackAt; rw [hac]; rfl
      have e4 : stackAt s (1 - s.button % 2) = s.stack1 := by unfold stackAt; rw [hac]; rfl
      rw [e1, e2, e3, e4] at hamt
      injection hp with hp2
      subst hp2
      rw [stack0_mk, stack1_mk, e1]
      omega
    · have hb1 : s.button % 2 = 1 := (Nat.mod_two_eq_zero_or_one s.button).resolve_left hac
      have e1 : pipAt s (s.button % 2) = s.pip1 := by unfold pipAt; rw [hb1]; rfl
      have e2 : pipAt s (1 - s.button % 2) = s.pip0 := by unfold pipAt; rw [hb1]; rfl
      have e3 : stackAt s (s.button % 2) = s.stack1 := by unfold stackAt; rw [hb1]; rfl
      have e4 : stackAt s (1 - s.button % 2) = s.stack0 := by unfold stackAt; rw [hb1]; rfl
      rw [e1, e2, e3, e4] at hamt
      injection hp with hp2
      subst hp2
      rw [stack0_mk, stack1_mk, e1]
      omega

/-- C3 witness: at a blinds-posted-shaped state with nonnegative stacks,
both raise bounds keep both stacks nonnegative after proceed. -/
theorem raise_bounds_sound_witness :
    (0 : Int) ≤ wit3state.stack0 ∧ (0 : Int) ≤ wit3state.stack1 ∧
    (raise_bounds wit3state).1 ≤ (raise_bounds wit3state).2 :=
  ⟨by decide, by decide, (raise_bounds_sound wit3state (by decide) (by decide)).2.1⟩

/-- C5: every TerminalState the state machine produces is zero-sum:
showdown results, proceed_street results and proceed results all carry
deltas summing to zero. -/
theorem terminal_states_zero_sum :
    (∀ s : RoundState, (showdown s).delta0 + (showdown s).delta1 = 0) ∧
    (∀ (s : RoundState) (t : TerminalState),
      proceed_street s = .terminal t → t.delta0 + t.delta1 = 0) ∧
    (∀ (s : RoundState) (a : Action) (t : TerminalState),
      proceed s a = .terminal t → t.delta0 + t.delta1 = 0) :=
  ⟨showdown_zero, proceed_street_terminal_zero, proceed_terminal_zero⟩

/-- C5 witness: the terminal state produced by folding the concrete root
is zero-sum. -/
theorem terminal_states_zero_sum_witness :
    (TerminalState.mk (-1) 1 start0c).delta0 + (TerminalState.mk (-1) 1 start0c).delta1 = 0 :=
  terminal_states_zero_sum.2.2 start0c Action.FoldAction (TerminalState.mk (-1) 1 start0c) rfl

/-- C6 (code bug evidence): the trips hand 9,9,9 with kicker 8 evaluates
to 16998 while the straight flush 1,2,3,4 of spades evaluates to 12321,
so a trips hand strictly outscores a straight flush: the 1000-wide
category bands overlap because 4-card tie-break values reach 9998. -/
theorem evaluate_band_overflow_bug :
    evaluate [⟨9, 0⟩, ⟨9, 1⟩] [⟨9, 2⟩, ⟨8, 0⟩] = 16998 ∧
    evaluate [⟨1, 0⟩, ⟨2, 0⟩] [⟨3, 0⟩, ⟨4, 0⟩] = 12321 ∧
    is_trips ((([⟨9, 0⟩, ⟨9, 1⟩] : List Card) ++ ([⟨9, 2⟩, ⟨8, 0⟩] : List Card)).insertionSort cardRankGe) = true ∧
    is_straight_flush ((([⟨1, 0⟩, ⟨2, 0⟩] : List Card) ++ ([⟨3, 0⟩, ⟨4, 0⟩] : List Card)).insertionSort cardRankGe) = true ∧
    evaluate [⟨1, 0⟩, ⟨2, 0⟩] [⟨3, 0⟩, ⟨4, 0⟩] < evaluate [⟨9, 0⟩, ⟨9, 1⟩] [⟨9, 2⟩, ⟨8, 0⟩] := by
  refine ⟨by decide, by decide, by decide, by decide, by decide⟩

/-- C8: folding immediately produces a TerminalState whose active-player
delta is that player's stack minus STARTING_STACK, with the opponent
receiving the negation; in particular, player 0 folding preflop after
raising to 10 loses 10 (the stack-based delta), not only the blind. -/
theorem proceed_fold_spec (s : RoundState) :
    proceed s Action.FoldAction = .terminal ⟨foldDelta s, -foldDelta s, s⟩ ∧
    (if s.button % 2 = 0 then foldDelta s = s.stack0 - (STARTING_STACK : Int)
     else -foldDelta s = s.stack1 - (STARTING_STACK : Int)) ∧
    proceed cex8 Action.FoldAction = .terminal ⟨-10, 10, cex8⟩ ∧
    (TerminalState.mk (-10) 10 cex8).delta0 ≠ -1 := by
  refine ⟨rfl, ?_, rfl, by decide⟩
  unfold foldDelta
  split_ifs <;> omega

/-- C10: the equity-chop denominator comb used by showdown equals twice
the number of (2 - len(board))-card combinations of the remaining deck,
and it is positive whenever the deck holds at least the missing cards, so
the division never divides by zero. -/
theorem equity_chop_denominator_pos (s : RoundState)
    (hb : s.board.length < 2) (hd : 2 - s.board.length ≤ s.deck.length) :
    combOf s = 2 * Nat.choose s.deck.length (2 - s.board.length) ∧ 0 < combOf s := by
  refine ⟨combOf_eq_choose s, ?_⟩
  rw [combOf_eq_choose s]
  have := Nat.choose_pos hd
  omega

/-- C10 witness: at the concrete all-in state with a 1-card board and a
3-card deck the denominator is positive. -/
theorem equity_chop_denominator_pos_witness :
    wit1state.board.length < 2 ∧ 2 - wit1state.board.length ≤ wit1state.deck.length ∧
    0 < combOf wit1state :=
  ⟨by decide, by decide,
    (equity_chop_denominator_pos wit1state (by decide) (by decide)).2⟩

/-- C1: with an incomplete board, showdown returns the equity-chop
terminal state with player 0's delta equal to
round(2 * STARTING_STACK * p0Eq / comb) - STARTING_STACK, where p0Eq
accumulates 2 per completion player 0 wins plus 1 per tie over every
combination of the missing 2 - len(board) cards from the undealt deck,
and comb accumulates 2 per enumerated completion; with exactly one board
card there are exactly |deck| single-card completions and
comb = 2 * |deck|. -/
theorem showdown_equity_chop_spec (s : RoundState) (hb : s.board.length < 2) :
    showdown s = ⟨eqDelta s, -eqDelta s, s⟩ ∧
    eqDelta s = (pyRound (2 * STARTING_STACK * p0EqOf s) (combOf s) : Int) - STARTING_STACK ∧
    p0EqOf s =
      2 * (completions s).countP
            (fun c => decide (evaluate s.hand1 (s.board ++ c) < evaluate s.hand0 (s.board ++ c)))
        + (completions s).countP
            (fun c => decide (evaluate s.hand0 (s.board ++ c) = evaluate s.hand1 (s.board ++ c))) ∧
    combOf s = 2 * (completions s).length ∧
    (completions s).length = Nat.choose s.deck.length (2 - s.board.length) ∧
    (s.board.length = 1 →
      (completions s).length = s.deck.length ∧ combOf s = 2 * s.deck.length) := by
  refine ⟨?_, rfl, ?_, rfl, ?_, ?_⟩
  · unfold showdown eqDelta
    rw [if_pos hb]
  · unfold p0EqOf
    exact sum_map_two_one (completions s) _ _
  · unfold completions
    rw [List.length_sublistsLen]
  · intro h1
    unfold combOf completions
    rw [List.length_sublistsLen, h1]
    norm_num [Nat.choose_one_right]

/-- C1 witness: the equity-chop facts instantiated at the concrete all-in
state with one board card and three undealt cards. -/
theorem showdown_equity_chop_spec_witness :
    wit1state.board.length < 2 ∧
    showdown wit1state = ⟨eqDelta wit1state, -eqDelta wit1state, wit1state⟩ ∧
    (completions wit1state).length = wit1state.deck.length ∧
    combOf wit1state = 2 * wit1state.deck.length :=
  ⟨by decide, (showdown_equity_chop_spec wit1state (by decide)).1,
    ((showdown_equity_chop_spec wit1state (by decide)).2.2.2.2.2 (by decide)).1,
    ((showdown_equity_chop_spec wit1state (by decide)).2.2.2.2.2 (by decide)).2⟩

/-- C7 counterexample: at a complete board with tied hands and stacks 5
and 2, player 0's delta is 1: doubled it falls strictly short of the
stack difference 3, so the odd remainder chip goes against player 0, not
against player 1 as the claim states. -/
theorem showdown_tie_remainder_cex :
    (showdown cex7).delta0 = 1 ∧
    2 * (showdown cex7).delta0 < cex7.stack0 - cex7.stack1 := by
  refine ⟨rfl, by decide⟩

/-- C7 (amended): with a complete 2-card board the winner's delta is
STARTING_STACK minus the loser's stack, and on a tie player 0's delta is
the floor division (stacks[0] - stacks[1]) // 2, so when the stack
difference is odd the half-chip remainder goes against player 0
(2 * delta0 = difference - 1). -/
theorem showdown_complete_board_spec (s : RoundState) (hb : s.board.length = 2) :
    (evaluate s.hand1 s.board < evaluate s.hand0 s.board →
      showdown s = ⟨(STARTING_STACK : Int) - s.stack1,
        -((STARTING_STACK : Int) - s.stack1), s⟩) ∧
    (evaluate s.hand0 s.board < evaluate s.hand1 s.board →
      showdown s = ⟨s.stack0 - (STARTING_STACK : Int),
        -(s.stack0 - (STARTING_STACK : Int)), s⟩) ∧
    (evaluate s.hand0 s.board = evaluate s.hand1 s.board →
      showdown s = ⟨Int.fdiv (s.stack0 - s.stack1) 2,
        -Int.fdiv (s.stack0 - s.stack1) 2, s⟩ ∧
      ((s.stack0 - s.stack1) % 2 = 1 →
        2 * Int.fdiv (s.stack0 - s.stack1) 2 = s.stack0 - s.stack1 - 1)) := by
  have hsd : showdown s =
      ⟨if evaluate s.hand1 s.board < evaluate s.hand0 s.board
          then (STARTING_STACK : Int) - s.stack1
        else if evaluate s.hand0 s.board < evaluate s.hand1 s.board
          then s.stack0 - (STARTING_STACK : Int)
        else Int.fdiv (s.stack0 - s.stack1) 2,
       -(if evaluate s.hand1 s.board < evaluate s.hand0 s.board
          then (STARTING_STACK : Int) - s.stack1
        else if evaluate s.hand0 s.board < evaluate s.hand1 s.board
          then s.stack0 - (STARTING_STACK : Int)
        else Int.fdiv (s.stack0 - s.stack1) 2), s⟩ := by
    unfold showdown
    rw [if_neg (by omega)]
  refine ⟨?_, ?_, ?_⟩
  · intro h
    rw [hsd, if_pos h]
  · intro h
    rw [hsd, if_neg (by omega), if_pos h]
  · intro h
    have h1 : ¬ evaluate s.hand1 s.board < evaluate s.hand0 s.board := by omega
    have h2 : ¬ evaluate s.hand0 s.board < evaluate s.hand1 s.board := by omega
    refine ⟨by rw [hsd, if_neg h1, if_neg h2], ?_⟩
    intro hodd
    rw [Int.fdiv_eq_ediv _ (by omega)]
    omega

/-- C7 witness: the amended tie clause instantiated at the concrete tied
state with odd stack difference. -/
theorem showdown_complete_board_spec_witness :
    showdown cex7 = ⟨Int.fdiv (cex7.stack0 - cex7.stack1) 2,
      -Int.fdiv (cex7.stack0 - cex7.stack1) 2, cex7⟩ ∧
    2 * Int.fdiv (cex7.stack0 - cex7.stack1) 2 = cex7.stack0 - cex7.stack1 - 1 :=
  ⟨((showdown_complete_board_spec cex7 rfl).2.2 (by decide)).1,
    ((showdown_complete_board_spec cex7 rfl).2.2 (by decide)).2 (by decide)⟩

/-- Every reachable state satisfies the state-machine invariant. -/
theorem reachable_inv {s : RoundState} (h : Reachable s) : Inv s := by
  induction h with
  | init hand0 hand1 deck =>
      unfold Inv chipSum startState
      simp [pipAt, stackAt, STARTING_STACK, SMALL_BLIND, BIG_BLIND]
  | step s a s' hr hleg hp ih =>
      cases a with
      | FoldAction =>
          simp [proceed] at hp
      | CallAction =>
          clear hleg hr
          simp only [proceed] at hp
          split_ifs at hp with hbtn hac
          · injection hp with hp2
            subst hp2
            unfold Inv chipSum
            simp [STARTING_STACK, BIG_BLIND]
          · unfold proceed_street at hp
            simp only [button_mk, street_mk, pip0_mk, pip1_mk, stack0_mk, stack1_mk,
              hand0_mk, hand1_mk, board_mk, deck_mk] at hp
            split_ifs at hp <;>
            · injection hp with hp2
              subst hp2
              unfold Inv chipSum at ih ⊢
              unfold pipAt at *
              simp only [button_mk, street_mk, pip0_mk, pip1_mk, stack0_mk, stack1_mk]
              split_ifs at * <;> (try simp only [false_implies, and_true]) <;> omega
          · unfold proceed_street at hp
            simp only [button_mk, street_mk, pip0_mk, pip1_mk, stack0_mk, stack1_mk,
              hand0_mk, hand1_mk, board_mk, deck_mk] at hp
            split_ifs at hp <;>
            · injection hp with hp2
              subst hp2
              unfold Inv chipSum at ih ⊢
              unfold pipAt at *
              simp only [button_mk, street_mk, pip0_mk, pip1_mk, stack0_mk, stack1_mk]
              split_ifs at * <;> (try simp only [false_implies, and_true]) <;> omega
      | CheckAction =>
          clear hr
          simp only [LegalFor] at hleg
          have hcost : pipAt s (1 - s.button % 2) - pipAt s (s.button % 2) = 0 := by
            unfold legal_actions at hleg
            by_cases hc : pipAt s (1 - s.button % 2) - pipAt s (s.button % 2) = 0
            · exact hc
            · rw [if_neg hc] at hleg
              split_ifs at hleg
              · exact absurd hleg (by decide)
              · exact absurd hleg (by decide)
          clear hleg
          simp only [proceed] at hp
          split_ifs at hp with hcl
          · unfold proceed_street at hp
            split_ifs at hp <;>
            · injection hp with hp2
              subst hp2
              unfold Inv chipSum at ih ⊢
              unfold pipAt at *
              simp only [button_mk, street_mk, pip0_mk, pip1_mk, stack0_mk, stack1_mk]
              split_ifs at * <;> (try simp only [false_implies, and_true]) <;> omega
          · injection hp with hp2
            subst hp2
            unfold Inv chipSum at ih ⊢
            unfold pipAt at *
            simp only [button_mk, street_mk, pip0_mk, pip1_mk, stack0_mk, stack1_mk]
            split_ifs at * <;> (try simp only [false_implies, and_true]) <;> omega
      | RaiseAction amount =>
          clear hr
          simp only [LegalFor] at hleg
          obtain ⟨hk, hlo, hhi⟩ := hleg
          simp only [proceed] at hp
          split_ifs at hp with hac <;>
          · injection hp with hp2
            subst hp2
            unfold legal_actions at hk
            simp only [raise_bounds] at hlo hhi
            unfold Inv chipSum at ih ⊢
            unfold pipAt stackAt at *
            simp only [button_mk, street_mk, pip0_mk, pip1_mk, stack0_mk, stack1_mk]
            split_ifs at * <;>
              first
                | exact absurd hk (by decide)
                | omega
                | (simp only [false_implies, and_true]; omega)

/-- C4 counterexample: the flop state reached by small-blind limp then
big-blind check is reachable through legal actions, yet its stacks plus
pips total 796, not 2 * STARTING_STACK = 800 (the preflop blinds were
cleared from the pips without being banked in any field). -/
theorem chip_conservation_cex :
    Reachable st2c ∧ chipSum st2c ≠ 2 * (STARTING_STACK : Int) := by
  constructor
  · have r0 : Reachable start0c := Reachable.init h0c h1c d0c
    have r1 : Reachable st1c :=
      Reachable.step start0c Action.CallAction st1c r0
        (by show ActionKind.CallAction ∈ legal_actions start0c; decide) rfl
    exact Reachable.step st1c Action.CheckAction st2c r1
      (by show ActionKind.CheckAction ∈ legal_actions st1c; decide) rfl
  · decide

/-- C4 (amended): along states reachable by legal actions the total
stacks[0] + pips[0] + stacks[1] + pips[1] never exceeds
2 * STARTING_STACK, and equals it exactly while the street is still 0;
once a street advances, the cleared pips leave the total short by the
chips already committed to the pot. -/
theorem chip_conservation_amended {s : RoundState} (h : Reachable s) :
    chipSum s ≤ 2 * (STARTING_STACK : Int) ∧
    (s.street = 0 → chipSum s = 2 * (STARTING_STACK : Int)) := by
  have hinv := reachable_inv h
  unfold Inv at hinv
  exact ⟨hinv.2.2.2.2.2.1, hinv.2.2.2.2.2.2⟩

/-- C4 witness: the amended conservation instantiated at the concrete
blinds-posted root, where the total is exactly 800. -/
theorem chip_conservation_amended_witness :
    chipSum start0c ≤ 2 * (STARTING_STACK : Int) ∧
    (start0c.street = 0 → chipSum start0c = 2 * (STARTING_STACK : Int)) :=
  chip_conservation_amended (Reachable.init h0c h1c d0c)

/-- Reading back the list object just overwritten. -/
theorem store_get_set_self (σ : Store) (r : Nat) (v : List Card)
    (h : r < σ.lists.length) : (σ.set r v).get r = v := by
  unfold Store.get Store.set
  simp [List.getD, List.getElem?_set_self, h]

/-- Overwriting one list object leaves the others untouched. -/
theorem store_get_set_ne (σ : Store) {r r' : Nat} (v : List Card) (h : r ≠ r') :
    (σ.set r v).get r' = σ.get r' := by
  unfold Store.get Store.set
  simp [List.getD, List.getElem?_set_ne h]

/-- C9 counterexample: advancing the street at the concrete state s9ref
changes the contents of the board object that s9ref (an already-
constructed state) holds, and the returned state carries the very same
object references. -/
theorem proceed_street_alias_cex :
    (proceed_street_ref s9ref store9).2.get s9ref.boardRef ≠ store9.get s9ref.boardRef ∧
    (proceed_street_ref s9ref store9).1 = some ⟨1, 1, 0, 0, 398, 398, [], [], 0, 1⟩ := by
  refine ⟨by decide, by decide⟩

/-- C9 (amended): the state machine never rebinds a field of an existing
state (each transition builds a new record), but proceed_street mutates
the board and deck list objects in place: the new state returned shares
s's boardRef and deckRef, and after the call the board object s points to
equals its old contents extended by the dealt card — in particular it
differs from its contents before the call. -/
theorem proceed_street_mutates_in_place (s : RoundStateRef) (σ : Store)
    (hst : s.street < 2) (hsum : s.stack0 + s.stack1 ≠ 0)
    (hne : s.boardRef ≠ s.deckRef)
    (hblt : s.boardRef < σ.lists.length)
    (hdk : σ.get s.deckRef ≠ []) :
    (proceed_street_ref s σ).1 =
      some ⟨1, s.street + 1, 0, 0, s.stack0, s.stack1, s.hand0, s.hand1,
        s.boardRef, s.deckRef⟩ ∧
    (proceed_street_ref s σ).2.get s.boardRef
      = σ.get s.boardRef ++ (σ.get s.deckRef).drop ((σ.get s.deckRef).length - 1) ∧
    (proceed_street_ref s σ).2.get s.boardRef ≠ σ.get s.boardRef := by
  have hdl : 0 < (σ.get s.deckRef).length := List.length_pos.mpr hdk
  have hkey : (proceed_street_ref s σ).2.get s.boardRef
      = σ.get s.boardRef ++ (σ.get s.deckRef).drop ((σ.get s.deckRef).length - 1) := by
    unfold proceed_street_ref
    rw [if_neg (by omega), if_pos (by omega : s.street + 1 = 1 ∨ s.street + 1 = 2)]
    have hlen : s.boardRef < (σ.set s.deckRef ((σ.get s.deckRef).take ((σ.get s.deckRef).length - 1))).lists.length := by
      unfold Store.set
      simpa using hblt
    rw [store_get_set_self _ _ _ hlen, store_get_set_ne σ _ (Ne.symm hne)]
  refine ⟨?_, hkey, ?_⟩
  · unfold proceed_street_ref
    rw [if_neg (by omega), if_pos (by omega : s.street + 1 = 1 ∨ s.street + 1 = 2)]
  · rw [hkey]
    intro heq
    have hlen := congrArg List.length heq
    rw [List.length_append, List.length_drop] at hlen
    omega

/-- C9 witness: the in-place mutation facts instantiated at the concrete
state and heap. -/
theorem proceed_street_mutates_in_place_witness :
    (proceed_street_ref s9ref store9).1 =
      some ⟨1, s9ref.street + 1, 0, 0, s9ref.stack0, s9ref.stack1, s9ref.hand0,
        s9ref.hand1, s9ref.boardRef, s9ref.deckRef⟩ ∧
    (proceed_street_ref s9ref store9).2.get s9ref.boardRef
      ≠ store9.get s9ref.boardRef :=
  ⟨(proceed_street_mutates_in_place s9ref store9 (by decide) (by decide) (by decide)
      (by decide) (by decide)).1,
    (proceed_street_mutates_in_place s9ref store9 (by decide) (by decide) (by decide)
      (by decide) (by decide)).2.2⟩

end PokerEngine
